import Mathlib

/-!
# Verification of the tokscale pricing / session-parsing core

Shallow embedding of `packages/core/src/pricing/{lookup,cache,litellm,openrouter}.rs`
and `packages/core/src/sessions/amp.rs`.

Modelling conventions:
* Rust `HashMap<String, ModelPricing>` datasets are association lists
  `List (String × ModelPricing)` with first-match lookup (`dsGet`); keys are
  unique in every concrete instance we build.
* Rust `f64` rates are embedded as exact rationals `ℚ` (the arithmetic in the
  claims was checked to be exact in binary64 as well).
* The static alias tables (`aliases.rs`, external data per the spec) are
  parameters: an `Aliases` record of the two functions the resolver calls.
* Strings are ASCII in all model identifiers; `Char.isAlphanum` and
  `String.toLower` coincide with the Rust Unicode versions on that range.
-/

namespace Tokscale

/-- `ModelPricing` from `litellm.rs`: four optional per-token USD rates
(field order as in the Rust struct). -/
structure ModelPricing where
  input_cost_per_token : Option ℚ
  output_cost_per_token : Option ℚ
  cache_creation_input_token_cost : Option ℚ
  cache_read_input_token_cost : Option ℚ
deriving DecidableEq, Repr

/-- First-match lookup in an association-list dataset (models `HashMap::get`). -/
def dsGet (ds : List (String × ModelPricing)) (k : String) : Option ModelPricing :=
  (ds.find? (fun p => p.1 == k)).map Prod.snd

/-- Index of the first occurrence of `needle` in `hay` (models Rust `str::find`
at character level). -/
def firstOccur (needle : List Char) : List Char → Option Nat
  | [] => if needle.isPrefixOf ([] : List Char) then some 0 else none
  | c :: t =>
    if needle.isPrefixOf (c :: t) then some 0
    else (firstOccur needle t).map (· + 1)

/-- Rust `str::to_lowercase`, at character level (ASCII-faithful). -/
def strToLower (s : String) : String := ⟨s.data.map Char.toLower⟩

/-- Rust `str::trim`, at character level. -/
def strTrim (s : String) : String :=
  ⟨((s.data.dropWhile Char.isWhitespace).reverse.dropWhile Char.isWhitespace).reverse⟩

/-- Substring containment (models Rust `str::contains`). -/
def containsSub (s sub : String) : Bool :=
  (firstOccur sub.data s.data).isSome

/-- `is_word_boundary_match` from `lookup.rs`: finds the FIRST occurrence of
`needle` in `haystack` and checks that both its edges are a string edge or a
non-alphanumeric character. -/
def is_word_boundary_match (haystack needle : String) : Bool :=
  match firstOccur needle.data haystack.data with
  | none => false
  | some pos =>
    let before_ok := pos == 0 || !((haystack.data.getD (pos - 1) ' ').isAlphanum)
    let after_ok := pos + needle.data.length == haystack.data.length ||
      !((haystack.data.getD (pos + needle.data.length) ' ').isAlphanum)
    before_ok && after_ok

/-- `normalize_model_name` from `lookup.rs`. -/
def normalize_model_name (model_id : String) : Option String :=
  let lower := strToLower model_id
  if containsSub lower "opus" && (containsSub lower "4.5" || containsSub lower "4-5") then
    some "opus-4-5"
  else if containsSub lower "opus" && containsSub lower "4" then
    some "opus-4"
  else if containsSub lower "sonnet" && (containsSub lower "4.5" || containsSub lower "4-5") then
    some "sonnet-4-5"
  else if containsSub lower "sonnet" && containsSub lower "4" then
    some "sonnet-4"
  else if containsSub lower "sonnet" && (containsSub lower "3.7" || containsSub lower "3-7") then
    some "sonnet-3-7"
  else if containsSub lower "sonnet" && (containsSub lower "3.5" || containsSub lower "3-5") then
    some "sonnet-3-5"
  else if containsSub lower "haiku" && (containsSub lower "4.5" || containsSub lower "4-5") then
    some "haiku-4-5"
  else if lower == "o3" then some "o3"
  else if "gpt-4o".data.isPrefixOf lower.data || lower == "gpt-4o" then some "gpt-4o"
  else if "gpt-4.1".data.isPrefixOf lower.data || containsSub lower "gpt-4.1" then some "gpt-4.1"
  else if containsSub lower "gemini-2.5-pro" then some "gemini-2.5-pro"
  else if containsSub lower "gemini-2.5-flash" then some "gemini-2.5-flash"
  else none

/-- The fixed provider-qualification list from `lookup.rs`. -/
def PROVIDER_PREFIXES : List String :=
  ["anthropic/", "openai/", "google/", "bedrock/", "openrouter/"]

/-- `LookupResult` from `lookup.rs`. -/
structure LookupResult where
  pricing : ModelPricing
  source : String
  matched_key : String
deriving DecidableEq, Repr

/-- The static alias tables (`aliases.rs` is external data per the spec §4.3);
the resolver only calls these two functions. -/
structure Aliases where
  resolve_alias : String → Option String
  get_openrouter_id : String → Option String

/-- The order `Vec<String>::sort` sorts by: lexicographic on the character
sequence (equals Rust's byte-wise order on ASCII strings). -/
def strDataLe (a b : String) : Prop := a.data ≤ b.data

instance : DecidableRel strDataLe :=
  fun a b => (inferInstance : Decidable (a.data ≤ b.data))

instance : IsTotal String strDataLe := ⟨fun a b => le_total a.data b.data⟩

instance : IsTrans String strDataLe := ⟨fun _ _ _ h h2 => le_trans h h2⟩

/-- `PricingLookup` from `lookup.rs`. -/
structure PricingLookup where
  litellm : List (String × ModelPricing)
  openrouter : List (String × ModelPricing)
  sorted_keys : List String

/-- `PricingLookup::new`: stores both datasets and the ascending sort of the
bulk dataset's keys (`sorted_keys.sort()`). -/
def PricingLookup.new (litellm openrouter : List (String × ModelPricing)) : PricingLookup :=
  { litellm := litellm, openrouter := openrouter,
    sorted_keys := List.insertionSort strDataLe (litellm.map Prod.fst) }

/-- `PricingLookup::fuzzy_match_litellm`: scan the sorted keys; for each key
try the lower-cased original id, then the lower-cased normalized id. -/
def PricingLookup.fuzzy_match_litellm (l : PricingLookup) (model_id : String) :
    Option LookupResult :=
  let lower := strToLower model_id
  let lower_normalized := (normalize_model_name model_id).map strToLower
  l.sorted_keys.findSome? (fun key =>
    let lower_key := strToLower key
    if is_word_boundary_match lower_key lower then
      (dsGet l.litellm key).map (fun p => ⟨p, "litellm", key⟩)
    else
      match lower_normalized with
      | some ln =>
        if is_word_boundary_match lower_key ln then
          (dsGet l.litellm key).map (fun p => ⟨p, "litellm", key⟩)
        else none
      | none => none)

/-- `PricingLookup::lookup_litellm`: exact, provider-prefixed, normalized
exact, normalized prefixed, then fuzzy. -/
def PricingLookup.lookup_litellm (l : PricingLookup) (model_id : String) :
    Option LookupResult :=
  match dsGet l.litellm model_id with
  | some p => some ⟨p, "litellm", model_id⟩
  | none =>
    match PROVIDER_PREFIXES.findSome? (fun pre =>
        (dsGet l.litellm (pre ++ model_id)).map (fun p => ⟨p, "litellm", pre ++ model_id⟩)) with
    | some r => some r
    | none =>
      match normalize_model_name model_id with
      | some normalized =>
        match dsGet l.litellm normalized with
        | some p => some ⟨p, "litellm", normalized⟩
        | none =>
          match PROVIDER_PREFIXES.findSome? (fun pre =>
              (dsGet l.litellm (pre ++ normalized)).map
                (fun p => ⟨p, "litellm", pre ++ normalized⟩)) with
          | some r => some r
          | none => l.fuzzy_match_litellm model_id
      | none => l.fuzzy_match_litellm model_id

/-- `PricingLookup::lookup_openrouter`: alias-table translation to an
`author/slug` id, then a direct per-endpoint dataset lookup. -/
def PricingLookup.lookup_openrouter (a : Aliases) (l : PricingLookup) (model_id : String) :
    Option LookupResult :=
  (a.get_openrouter_id model_id).bind (fun or_id =>
    (dsGet l.openrouter or_id).map (fun p => ⟨p, "openrouter", or_id⟩))

/-- `PricingLookup::lookup`. -/
def PricingLookup.lookup (a : Aliases) (l : PricingLookup) (model_id : String) :
    Option LookupResult :=
  let canonical := (a.resolve_alias model_id).getD model_id
  match l.lookup_litellm canonical with
  | some r => some r
  | none => PricingLookup.lookup_openrouter a l canonical

/-- `PricingLookup::calculate_cost` (i64 token counts as `ℤ`, f64 as `ℚ`). -/
def PricingLookup.calculate_cost (a : Aliases) (l : PricingLookup) (model_id : String)
    (input output cache_read cache_write reasoning : ℤ) : ℚ :=
  match l.lookup a model_id with
  | none => 0
  | some result =>
    let p := result.pricing
    (input : ℚ) * (p.input_cost_per_token.getD 0)
      + ((output + reasoning : ℤ) : ℚ) * (p.output_cost_per_token.getD 0)
      + (cache_read : ℚ) * (p.cache_read_input_token_cost.getD 0)
      + (cache_write : ℚ) * (p.cache_creation_input_token_cost.getD 0)

/-! ## Local cache (`cache.rs`)

`load_cache`/`save_cache` interact with the filesystem and the clock; the
embedding makes both explicit: the file read plus JSON decode collapse to an
`Option (CachedData T)` (none = read or deserialization failure), and `now`
(epoch seconds, `u64`) is a parameter. Serde serialization of a serializable
`T` is modelled as the identity on `CachedData T`. -/

def CACHE_TTL_SECS : Nat := 3600

/-- `CachedData<T>` from `cache.rs`. -/
structure CachedData (T : Type) where
  timestamp : Nat
  data : T
deriving DecidableEq, Repr

/-- `load_cache`: fails closed on read/decode failure, a future timestamp, or
an entry older than the TTL (`saturating_sub` on `u64` is `Nat` subtraction). -/
def load_cache {T : Type} (readResult : Option (CachedData T)) (now : Nat) : Option T :=
  match readResult with
  | none => none
  | some cached =>
    if cached.timestamp > now || now - cached.timestamp > CACHE_TTL_SECS then none
    else some cached.data

/-- `save_cache`: the blob written (atomically, via temp-file + rename) is
`{timestamp := now, data}`. -/
def save_cache {T : Type} (now : Nat) (data : T) : CachedData T :=
  ⟨now, data⟩

/-! ## Per-endpoint acquisition (`openrouter.rs`)

The network and the f64 string parser are oracles: `net attempt` is the
outcome of HTTP attempt number `attempt` (0-based), and `parseF s` is the
result of Rust `s.parse::<f64>()` on an already-trimmed string, as an
extended-real classification `F64`. -/

/-- Classification of a parsed `f64` value: NaN, ±infinity, or a finite
rational. -/
inductive F64 where
  | nan : F64
  | inf (neg : Bool) : F64
  | fin (q : ℚ) : F64
deriving DecidableEq, Repr

/-- `f64::is_finite`. -/
def F64.isFinite : F64 → Bool
  | .fin _ => true
  | _ => false

/-- `v < 0.0` on an `f64` (false for NaN). -/
def F64.ltZero : F64 → Bool
  | .nan => false
  | .inf neg => neg
  | .fin q => decide (q < 0)

/-- The rational value of a finite `F64` (0 for the non-finite cases, which
are never stored). -/
def F64.toQ : F64 → ℚ
  | .fin q => q
  | _ => 0

/-- `EndpointPricing` from `openrouter.rs`: decimal-string price fields. -/
structure EndpointPricing where
  prompt : String
  completion : String
  input_cache_read : Option String
  input_cache_write : Option String
deriving DecidableEq, Repr

/-- `Endpoint` from `openrouter.rs`. -/
structure Endpoint where
  provider_name : String
  pricing : EndpointPricing
deriving DecidableEq, Repr

/-- `EndpointsData` from `openrouter.rs`. -/
structure EndpointsData where
  endpoints : List Endpoint
deriving DecidableEq, Repr

/-- `EndpointsResponse` from `openrouter.rs`. -/
structure EndpointsResponse where
  data : EndpointsData
deriving DecidableEq, Repr

/-- Outcome of one HTTP attempt: transport error, or a response with a status
code and (when the body is read as JSON) an optionally-decodable body
(`none` = malformed JSON). -/
inductive FetchOutcome where
  | netErr : FetchOutcome
  | resp (status : Nat) (body : Option EndpointsResponse) : FetchOutcome
deriving DecidableEq, Repr

/-- Rust `str::split('/')` collected to a `Vec`, at character level. -/
def splitSlash (s : String) : List String := (s.data.splitOn '/').map (fun l => ⟨l⟩)

def MAX_RETRIES : Nat := 3
def INITIAL_BACKOFF_MS : Nat := 200

/-- `str::eq_ignore_ascii_case`. -/
def eqIgnoreAsciiCase (a b : String) : Bool :=
  strToLower a == strToLower b

/-- The success-path body of `fetch_model_endpoints`: decode, select the
endpoint whose provider name matches the expected provider (synonym table
`pnames`, defaulting to the raw author), parse and validate the prices.
`none` on any failure (all non-retryable). -/
def processResponse (pnames : String → Option String) (parseF : String → Option F64)
    (author : String) (body : Option EndpointsResponse) : Option ModelPricing :=
  match body with
  | none => none
  | some data =>
    let expected_provider := (pnames author).getD author
    match data.data.endpoints.find? (fun e => eqIgnoreAsciiCase e.provider_name expected_provider) with
    | none => none
    | some endpoint =>
      match parseF (strTrim endpoint.pricing.prompt) with
      | none => none
      | some input_cost =>
        match parseF (strTrim endpoint.pricing.completion) with
        | none => none
        | some output_cost =>
          if !input_cost.isFinite || !output_cost.isFinite
              || input_cost.ltZero || output_cost.ltZero then none
          else some
            { input_cost_per_token := some input_cost.toQ
              output_cost_per_token := some output_cost.toQ
              cache_read_input_token_cost :=
                (endpoint.pricing.input_cache_read.bind (fun s => parseF (strTrim s))).bind
                  (fun v => if v.isFinite && !v.ltZero then some v.toQ else none)
              cache_creation_input_token_cost :=
                (endpoint.pricing.input_cache_write.bind (fun s => parseF (strTrim s))).bind
                  (fun v => if v.isFinite && !v.ltZero then some v.toQ else none) }

/-- Result of one loop iteration of `fetch_model_endpoints`: retry, or finish
with `done r` (`r = none`: the id is dropped; `r = some p`: success). -/
inductive AttemptOut where
  | retry : AttemptOut
  | done (r : Option ModelPricing) : AttemptOut
deriving DecidableEq, Repr

/-- One iteration of the retry loop: transport errors and HTTP 5xx/429 are
retryable; any other non-2xx status, and every decode/extract/parse failure,
finishes immediately. -/
def classifyAttempt (pnames : String → Option String) (parseF : String → Option F64)
    (author : String) (o : FetchOutcome) : AttemptOut :=
  match o with
  | .netErr => .retry
  | .resp status body =>
    if (500 ≤ status && status ≤ 599) || status == 429 then .retry
    else if !(200 ≤ status && status ≤ 299) then .done none
    else .done (processResponse pnames parseF author body)

/-- Observable trace of one per-id fetch: the result, the number of HTTP
attempts made, and the list of backoff delays slept (ms, in order). -/
structure FetchTrace where
  result : Option ModelPricing
  attempts : Nat
  delays : List Nat
deriving DecidableEq, Repr

/-- The `for attempt in 0..MAX_RETRIES` loop of `fetch_model_endpoints`;
`INITIAL_BACKOFF_MS * (1 <<< attempt)` is slept only when
`attempt < MAX_RETRIES - 1`. -/
def fetchLoop (pnames : String → Option String) (parseF : String → Option F64)
    (author : String) (net : Nat → FetchOutcome) : Nat → Nat → FetchTrace
  | _, 0 => ⟨none, 0, []⟩
  | attempt, fuel + 1 =>
    match classifyAttempt pnames parseF author (net attempt) with
    | .done r => ⟨r, 1, []⟩
    | .retry =>
      let t := fetchLoop pnames parseF author net (attempt + 1) fuel
      if attempt < MAX_RETRIES - 1 then
        ⟨t.result, t.attempts + 1, INITIAL_BACKOFF_MS * 2 ^ attempt :: t.delays⟩
      else
        ⟨t.result, t.attempts + 1, t.delays⟩

/-- `fetch_model_endpoints` (the `slug` only parameterizes the URL and log
lines, so it does not appear). -/
def fetch_model_endpoints (pnames : String → Option String) (parseF : String → Option F64)
    (author : String) (net : Nat → FetchOutcome) : FetchTrace :=
  fetchLoop pnames parseF author net 0 MAX_RETRIES

/-- `fetch_all_mapped`: cache-first; otherwise fetch every deduplicated
`author/slug` id, keep the successes, and write the cache only when the
aggregate is non-empty. Returns the mapping and whether the cache was
written. The function is total: per-id failures only shrink the mapping. -/
def fetch_all_mapped (cached : Option (List (String × ModelPricing)))
    (pnames : String → Option String) (parseF : String → Option F64)
    (unique_ids : List String) (net : String → Nat → FetchOutcome) :
    List (String × ModelPricing) × Bool :=
  match cached with
  | some c => (c, false)
  | none =>
    let result := unique_ids.filterMap (fun id =>
      let parts := splitSlash id
      if parts.length == 2 then
        (fetch_model_endpoints pnames parseF (parts.getD 0 "") (net id)).result.map
          (fun p => (id, p))
      else none)
    (result, !result.isEmpty)

/-! ## Bulk acquisition and service construction (`litellm.rs`, `mod.rs`) -/

/-- `litellm::fetch`: cache-first; on a cache hit the network is never used.
Second component: whether the network was used. -/
def litellm_fetch (cached : Option (List (String × ModelPricing)))
    (net : Except String (List (String × ModelPricing))) :
    Except String (List (String × ModelPricing)) × Bool :=
  match cached with
  | some c => (.ok c, false)
  | none => (net, true)

/-- `PricingService::fetch`: the bulk fetch and the per-endpoint batch run
concurrently; only a bulk failure is propagated (the per-endpoint batch is
total, its result `orData` may be empty). -/
def pricing_service_fetch (litellmCached : Option (List (String × ModelPricing)))
    (litellmNet : Except String (List (String × ModelPricing)))
    (orData : List (String × ModelPricing)) : Except String PricingLookup :=
  match (litellm_fetch litellmCached litellmNet).1 with
  | .error e => .error e
  | .ok litellm_data => .ok (PricingLookup.new litellm_data orData)

/-! ## Amp session parser (`sessions/amp.rs`)

File I/O and JSON decoding collapse to an `Option AmpThread` input (`none` =
unreadable file or undecodable JSON). `chrono::DateTime::parse_from_rfc3339`
followed by `timestamp_millis` is the oracle `parseTs`. `fileStem` is the
file-name stem used as the session-id fallback. -/

/-- `TokenBreakdown` — modelled from the spec §3 (declared outside `src/`):
integer token counts, absent fields defaulted to 0 by the producers. -/
structure TokenBreakdown where
  input : Int
  output : Int
  cache_read : Int
  cache_write : Int
  reasoning : Int
deriving DecidableEq, Repr

/-- `UnifiedMessage` — modelled from the spec §3 (declared outside `src/`):
one normalized usage event, fields in the order of `UnifiedMessage::new`
call sites. -/
structure UnifiedMessage where
  source_tool : String
  model : String
  provider : String
  session_id : String
  timestamp_ms : Int
  tokens : TokenBreakdown
  reported_cost : ℚ
deriving DecidableEq, Repr

/-- `AmpTokens` from `amp.rs`. -/
structure AmpTokens where
  input : Option Int
  output : Option Int
deriving DecidableEq, Repr

/-- `AmpUsageEvent` from `amp.rs`. -/
structure AmpUsageEvent where
  timestamp : Option String
  model : Option String
  credits : Option ℚ
  tokens : Option AmpTokens
  operation_type : Option String
deriving DecidableEq, Repr

/-- `AmpMessageUsage` from `amp.rs`. -/
structure AmpMessageUsage where
  model : Option String
  input_tokens : Option Int
  output_tokens : Option Int
  cache_read_input_tokens : Option Int
  cache_creation_input_tokens : Option Int
  credits : Option ℚ
deriving DecidableEq, Repr

/-- `AmpMessage` from `amp.rs`. -/
structure AmpMessage where
  role : Option String
  message_id : Option Int
  usage : Option AmpMessageUsage
deriving DecidableEq, Repr

/-- `AmpUsageLedger` from `amp.rs`. -/
structure AmpUsageLedger where
  events : Option (List AmpUsageEvent)
deriving DecidableEq, Repr

/-- `AmpThread` from `amp.rs`. -/
structure AmpThread where
  id : Option String
  created : Option Int
  messages : Option (List AmpMessage)
  usage_ledger : Option AmpUsageLedger
deriving DecidableEq, Repr

/-- `get_provider_from_model` from `amp.rs`. -/
def get_provider_from_model (model : String) : String :=
  let model_lower := strToLower model
  if containsSub model_lower "claude" || containsSub model_lower "opus"
      || containsSub model_lower "sonnet" || containsSub model_lower "haiku" then
    "anthropic"
  else if containsSub model_lower "gpt" || containsSub model_lower "o1"
      || containsSub model_lower "o3" then
    "openai"
  else if containsSub model_lower "gemini" then "google"
  else if containsSub model_lower "grok" then "xai"
  else "anthropic"

/-- One iteration of the `usageLedger.events` loop of `parse_amp_file`:
`none` = the event is dropped (`continue`). -/
def ampLedgerEvent (parseTs : String → Option Int) (thread_id : String)
    (event : AmpUsageEvent) : Option UnifiedMessage :=
  match event.model with
  | none => none
  | some model =>
    let timestamp := (event.timestamp.bind parseTs).getD 0
    if timestamp = 0 then none
    else
      let tokens := event.tokens.getD ⟨some 0, some 0⟩
      some ⟨"amp", model, get_provider_from_model model, thread_id, timestamp,
        ⟨tokens.input.getD 0, tokens.output.getD 0, 0, 0, 0⟩,
        event.credits.getD 0⟩

/-- One iteration of the per-message fallback loop of `parse_amp_file`:
`none` = the message is skipped. -/
def ampFallbackMessage (created : Int) (thread_id : String) (msg : AmpMessage) :
    Option UnifiedMessage :=
  if msg.role ≠ some "assistant" then none
  else
    match msg.usage with
    | none => none
    | some usage =>
      match usage.model with
      | none => none
      | some model =>
        let message_id := msg.message_id.getD 0
        let timestamp := created + message_id * 1000
        some ⟨"amp", model, get_provider_from_model model, thread_id, timestamp,
          ⟨usage.input_tokens.getD 0, usage.output_tokens.getD 0,
            usage.cache_read_input_tokens.getD 0,
            usage.cache_creation_input_tokens.getD 0, 0⟩,
          usage.credits.getD 0⟩

/-- `parse_amp_file`: empty on read/decode failure; prefers the usage ledger
(when `usageLedger.events` is present) and otherwise reconstructs from
assistant messages; drops unusable records individually. -/
def parse_amp_file (parseTs : String → Option Int) (fileStem : String)
    (file : Option AmpThread) : List UnifiedMessage :=
  match file with
  | none => []
  | some thread =>
    let thread_id := thread.id.getD fileStem
    match thread.usage_ledger with
    | some ledger =>
      match ledger.events with
      | some events => events.filterMap (ampLedgerEvent parseTs thread_id)
      | none =>
        (thread.messages.getD []).filterMap
          (ampFallbackMessage (thread.created.getD 0) thread_id)
    | none =>
      (thread.messages.getD []).filterMap
        (ampFallbackMessage (thread.created.getD 0) thread_id)

/-! ## Strategy decomposition of the resolver (for the precedence statements) -/

/-- Step 2 of §4.4: exact bulk match. -/
def exact_strategy (l : PricingLookup) (id : String) : Option LookupResult :=
  (dsGet l.litellm id).map (fun p => ⟨p, "litellm", id⟩)

/-- Step 3 of §4.4: provider-prefixed bulk match, prefixes in fixed order. -/
def prefixed_strategy (l : PricingLookup) (id : String) : Option LookupResult :=
  PROVIDER_PREFIXES.findSome? (fun pre =>
    (dsGet l.litellm (pre ++ id)).map (fun p => ⟨p, "litellm", pre ++ id⟩))

/-- Step 4 of §4.4, exact half: exact match of the version-normalized form. -/
def normalized_exact_strategy (l : PricingLookup) (id : String) : Option LookupResult :=
  (normalize_model_name id).bind (fun n => exact_strategy l n)

/-- Step 4 of §4.4, prefixed half: prefixed match of the version-normalized
form. -/
def normalized_prefixed_strategy (l : PricingLookup) (id : String) : Option LookupResult :=
  (normalize_model_name id).bind (fun n => prefixed_strategy l n)

/-- The word-boundary predicate as the spec words it (for refinement
comparison with `is_word_boundary_match`): the needle occurs SOMEWHERE in the
haystack with both edges a string edge or a non-alphanumeric character. -/
def existsWordBoundaryOccurrence (haystack needle : String) : Bool :=
  (List.range (haystack.data.length + 1)).any (fun pos =>
    needle.data.isPrefixOf (haystack.data.drop pos) &&
    (pos == 0 || !((haystack.data.getD (pos - 1) ' ').isAlphanum)) &&
    (pos + needle.data.length == haystack.data.length ||
      !((haystack.data.getD (pos + needle.data.length) ' ').isAlphanum)))

/-- The single-predicate form of the per-key fuzzy test: the key matches the
lower-cased original id, or the lower-cased normalized id when one exists. -/
def fuzzyKeyMatches (model_id key : String) : Bool :=
  is_word_boundary_match (strToLower key) (strToLower model_id) ||
    ((normalize_model_name model_id).map strToLower).any
      (fun ln => is_word_boundary_match (strToLower key) ln)

/-! ## Concrete fixtures used by witnesses -/

/-- Empty alias tables (the resolver works verbatim on the raw id). -/
def noAliases : Aliases := ⟨fun _ => none, fun _ => none⟩

/-- The pricing record of the spec's concrete cost scenario:
`{input: 0.000003, output: 0.000015, cache_read: 0.0000003}`. -/
def scenarioPricing : ModelPricing :=
  ⟨some (3 / 1000000), some (15 / 1000000), none, some (3 / 10000000)⟩

/-- A minimal pricing record for lookup-routing fixtures. -/
def unitPricing : ModelPricing := ⟨some 1, none, none, none⟩

/-- A retryable attempt outcome per `fetch_model_endpoints`: a transport
error, an HTTP 5xx, or HTTP 429. -/
def retryableOutcome (o : FetchOutcome) : Prop :=
  o = .netErr ∨ ∃ s b, o = .resp s b ∧ ((500 ≤ s ∧ s ≤ 599) ∨ s = 429)

/-! # Theorems -/

/-- Retryable outcomes are classified `.retry`. -/
theorem classify_of_retryable (pnames : String → Option String) (parseF : String → Option F64)
    (author : String) (o : FetchOutcome) (h : retryableOutcome o) :
    classifyAttempt pnames parseF author o = .retry := by
  rcases h with h | ⟨s, b, h, hs⟩ <;> subst h
  · rfl
  · rcases hs with ⟨h1, h2⟩ | h1
    · simp [classifyAttempt, h1, h2]
    · simp [classifyAttempt, h1]

/-- An always-retryable oracle exhausts the budget: 3 attempts, backoff 200
then 400 ms, no sleep after the final attempt, and no result. -/
theorem fetch_retry_trace (pnames : String → Option String) (parseF : String → Option F64)
    (author : String) (net : Nat → FetchOutcome) (h : ∀ n, retryableOutcome (net n)) :
    fetch_model_endpoints pnames parseF author net = ⟨none, 3, [200, 400]⟩ := by
  have h0 := classify_of_retryable pnames parseF author _ (h 0)
  have h1 := classify_of_retryable pnames parseF author _ (h 1)
  have h2 := classify_of_retryable pnames parseF author _ (h 2)
  simp [fetch_model_endpoints, MAX_RETRIES, fetchLoop, h0, h1, h2, INITIAL_BACKOFF_MS]

/-- A trace that drops at attempt `k` after `k` retryable attempts: `k + 1`
attempts in total, the first `k` backoff delays, no result. -/
theorem fetch_drop_trace (pnames : String → Option String) (parseF : String → Option F64)
    (author : String) (net : Nat → FetchOutcome) (k : Nat) (hk : k < MAX_RETRIES)
    (hpre : ∀ n, n < k → retryableOutcome (net n))
    (hdone : classifyAttempt pnames parseF author (net k) = .done none) :
    fetch_model_endpoints pnames parseF author net =
      ⟨none, k + 1, (List.range k).map (fun n => INITIAL_BACKOFF_MS * 2 ^ n)⟩ := by
  have hk3 : k = 0 ∨ k = 1 ∨ k = 2 := by
    simp [MAX_RETRIES] at hk; omega
  rcases hk3 with rfl | rfl | rfl
  · simp [fetch_model_endpoints, MAX_RETRIES, fetchLoop, hdone]
  · have h0 := classify_of_retryable pnames parseF author _ (hpre 0 (by norm_num))
    simp [fetch_model_endpoints, MAX_RETRIES, fetchLoop, h0, hdone, INITIAL_BACKOFF_MS] <;> decide
  · have h0 := classify_of_retryable pnames parseF author _ (hpre 0 (by norm_num))
    have h1 := classify_of_retryable pnames parseF author _ (hpre 1 (by norm_num))
    simp [fetch_model_endpoints, MAX_RETRIES, fetchLoop, h0, h1, hdone, INITIAL_BACKOFF_MS] <;>
      decide

/-- An id whose own fetch yields no result is absent from the batch mapping
(the batch itself is a total function and always returns the mapping). -/
theorem absent_of_result_none (pnames : String → Option String) (parseF : String → Option F64)
    (ids : List String) (netF : String → Nat → FetchOutcome) (id : String)
    (h : (fetch_model_endpoints pnames parseF ((splitSlash id).getD 0 "") (netF id)).result
      = none) :
    ∀ mp, (id, mp) ∉ (fetch_all_mapped none pnames parseF ids netF).1 := by
  intro mp hmem
  simp only [fetch_all_mapped, List.mem_filterMap] at hmem
  obtain ⟨i, _, heq⟩ := hmem
  by_cases hsplit : (splitSlash i).length == 2
  · rw [if_pos hsplit] at heq
    rw [Option.map_eq_some'] at heq
    obtain ⟨p, hp, hip⟩ := heq
    have hi : i = id := congrArg Prod.fst hip
    rw [hi] at hp
    rw [h] at hp
    exact Option.noConfusion hp
  · rw [if_neg hsplit] at heq
    exact Option.noConfusion heq

/-- C5: `load_cache` returns `none` whenever the read-plus-deserialize step
fails, the stored timestamp is strictly in the future, or the entry is older
than the 3600-second TTL — also for structurally valid entries. The function
is total into `Option`, so none of these conditions surfaces an error. -/
theorem C5_load_cache_fails_closed {T : Type} (readResult : Option (CachedData T)) (now : Nat)
    (h : readResult = none ∨
      ∃ c, readResult = some c ∧ (c.timestamp > now ∨ now - c.timestamp > CACHE_TTL_SECS)) :
    load_cache readResult now = none := by
  rcases h with h | ⟨c, hc, hbad⟩
  · simp [load_cache, h]
  · subst hc
    rcases hbad with hbad | hbad <;> simp [load_cache, hbad, CACHE_TTL_SECS] at * <;> omega

/-- C5 witness: a structurally valid entry aged past the TTL
(timestamp 0, now 4000) loads as `none`. -/
theorem C5_load_cache_fails_closed_witness :
    load_cache (some (⟨0, 7⟩ : CachedData Nat)) 4000 = none :=
  C5_load_cache_fails_closed (some ⟨0, 7⟩) 4000
    (Or.inr ⟨⟨0, 7⟩, rfl, Or.inr (by decide)⟩)

/-- C6: a `save_cache` blob written at time `t` and loaded at any time `now`
within the TTL window (`t ≤ now ≤ t + 3600`) yields exactly the saved value;
in particular an immediate reload (`now = t`) does. -/
theorem C6_cache_round_trip {T : Type} (v : T) (t now : Nat)
    (h1 : t ≤ now) (h2 : now - t ≤ CACHE_TTL_SECS) :
    load_cache (some (save_cache t v)) now = some v := by
  simp [load_cache, save_cache]
  omega

/-- C6 witness: save at 1000, load at 1000, get the value back. -/
theorem C6_cache_round_trip_witness :
    load_cache (some (save_cache 1000 (42 : Nat))) 1000 = some 42 :=
  C6_cache_round_trip 42 1000 1000 (by decide) (by decide)

/-- C7: `PricingService::fetch` fails exactly when the bulk (litellm)
acquisition fails — which requires a bulk cache miss; a bulk cache hit skips
the network entirely; and whatever the per-endpoint batch produced (the
always-total `orData`, possibly empty) never fails construction. -/
theorem C7_service_fetch_error_iff_bulk (litellmCached : Option (List (String × ModelPricing)))
    (litellmNet : Except String (List (String × ModelPricing)))
    (orData : List (String × ModelPricing)) :
    (∀ e, pricing_service_fetch litellmCached litellmNet orData = .error e ↔
      (litellm_fetch litellmCached litellmNet).1 = .error e) ∧
    (∀ e, (litellm_fetch litellmCached litellmNet).1 = .error e ↔
      (litellmCached = none ∧ litellmNet = .error e)) ∧
    (∀ c, litellmCached = some c →
      litellm_fetch litellmCached litellmNet = (.ok c, false) ∧
      pricing_service_fetch litellmCached litellmNet orData = .ok (PricingLookup.new c orData)) ∧
    (∀ d, (litellm_fetch litellmCached litellmNet).1 = .ok d →
      pricing_service_fetch litellmCached litellmNet orData = .ok (PricingLookup.new d orData)) := by
  refine ⟨?_, ?_, ?_, ?_⟩
  · intro e
    cases litellmCached <;> cases litellmNet <;>
      simp [pricing_service_fetch, litellm_fetch]
  · intro e
    cases litellmCached <;> cases litellmNet <;>
      simp [litellm_fetch]
  · intro c hc
    subst hc
    exact ⟨rfl, rfl⟩
  · intro d hd
    cases litellmCached <;> cases litellmNet <;>
      simp_all [pricing_service_fetch, litellm_fetch]

/-- C7 witness: with no cached bulk copy and a failing bulk fetch, service
construction fails with that error even though the per-endpoint batch
succeeded; a cache hit constructs without the network. -/
theorem C7_service_fetch_error_iff_bulk_witness :
    pricing_service_fetch none (.error "boom") [("openai/gpt-4o", unitPricing)] = .error "boom" ∧
    litellm_fetch (some [("m", unitPricing)]) (.error "boom") = (.ok [("m", unitPricing)], false) := by
  constructor
  · exact ((C7_service_fetch_error_iff_bulk none (.error "boom")
      [("openai/gpt-4o", unitPricing)]).1 "boom").mpr rfl
  · exact ((C7_service_fetch_error_iff_bulk (some [("m", unitPricing)]) (.error "boom") []).2.2.1
      [("m", unitPricing)] rfl).1

/-- C2: `calculate_cost` is 0 when `lookup` misses; otherwise it is
`input*input_rate + (output+reasoning)*output_rate + cache_read*cache_read_rate
+ cache_write*cache_write_rate` with absent rates read as 0 (reasoning billed
at the output rate); in particular an all-absent pricing record costs 0 for
every token breakdown, and the spec's concrete scenario evaluates to exactly
0.012060. -/
theorem C2_calculate_cost (a : Aliases) (l : PricingLookup) (model_id : String)
    (input output cache_read cache_write reasoning : ℤ) :
    (l.lookup a model_id = none →
      l.calculate_cost a model_id input output cache_read cache_write reasoning = 0) ∧
    (∀ r, l.lookup a model_id = some r →
      l.calculate_cost a model_id input output cache_read cache_write reasoning =
        (input : ℚ) * (r.pricing.input_cost_per_token.getD 0)
          + ((output : ℚ) + (reasoning : ℚ)) * (r.pricing.output_cost_per_token.getD 0)
          + (cache_read : ℚ) * (r.pricing.cache_read_input_token_cost.getD 0)
          + (cache_write : ℚ) * (r.pricing.cache_creation_input_token_cost.getD 0)) ∧
    (∀ r, l.lookup a model_id = some r → r.pricing = ⟨none, none, none, none⟩ →
      l.calculate_cost a model_id input output cache_read cache_write reasoning = 0) ∧
    ((PricingLookup.new [("m", scenarioPricing)] []).calculate_cost noAliases "m"
      1000 500 200 0 100 = 1206 / 100000) := by
  refine ⟨?_, ?_, ?_, ?_⟩
  · intro h
    simp [PricingLookup.calculate_cost, h]
  · intro r h
    simp only [PricingLookup.calculate_cost, h]
    push_cast
    ring
  · intro r h hp
    simp [PricingLookup.calculate_cost, h, hp]
  · have h : (PricingLookup.new [("m", scenarioPricing)] []).lookup noAliases "m" =
        some ⟨scenarioPricing, "litellm", "m"⟩ := rfl
    unfold PricingLookup.calculate_cost
    rw [h]
    show (1000 : ℚ) * (scenarioPricing.input_cost_per_token.getD 0)
        + ((500 + 100 : ℤ) : ℚ) * (scenarioPricing.output_cost_per_token.getD 0)
        + (200 : ℚ) * (scenarioPricing.cache_read_input_token_cost.getD 0)
        + (0 : ℚ) * (scenarioPricing.cache_creation_input_token_cost.getD 0) = 1206 / 100000
    norm_num [scenarioPricing]

/-- C2 witness: a miss (empty datasets) costs 0, and an all-absent record
matched exactly costs 0 at nonzero token counts. -/
theorem C2_calculate_cost_witness :
    (PricingLookup.new [] []).calculate_cost noAliases "x" 5 6 7 8 9 = 0 ∧
    (PricingLookup.new [("z", ⟨none, none, none, none⟩)] []).calculate_cost noAliases "z"
      1000 500 200 300 100 = 0 := by
  constructor
  · exact (C2_calculate_cost noAliases (PricingLookup.new [] []) "x" 5 6 7 8 9).1 (by decide)
  · exact (C2_calculate_cost noAliases (PricingLookup.new [("z", ⟨none, none, none, none⟩)] [])
      "z" 1000 500 200 300 100).2.2.1 ⟨⟨none, none, none, none⟩, "litellm", "z"⟩ (by decide) rfl

/-- C4: an id whose every attempt yields a retryable outcome (transport
error, HTTP 5xx, or 429) is tried exactly `MAX_RETRIES = 3` times; the
backoff slept before retry `n` is `200 * 2 ^ (n-1)` ms (so 200 then 400 ms —
the next doubling, 800 ms, would fall after the final attempt and is not
slept); the id ends with no result and is absent from the batch mapping,
which the total `fetch_all_mapped` still returns. -/
theorem C4_retry_budget (pnames : String → Option String) (parseF : String → Option F64)
    (author : String) (net : Nat → FetchOutcome) (h : ∀ n, retryableOutcome (net n)) :
    fetch_model_endpoints pnames parseF author net =
      ⟨none, 3, [INITIAL_BACKOFF_MS * 2 ^ 0, INITIAL_BACKOFF_MS * 2 ^ 1]⟩ ∧
    (∀ (ids : List String) (netF : String → Nat → FetchOutcome) (id : String),
      (∀ n, retryableOutcome (netF id n)) →
      ∀ mp, (id, mp) ∉ (fetch_all_mapped none pnames parseF ids netF).1) := by
  constructor
  · have := fetch_retry_trace pnames parseF author net h
    simpa [INITIAL_BACKOFF_MS] using this
  · intro ids netF id hid mp
    refine absent_of_result_none pnames parseF ids netF id ?_ mp
    rw [fetch_retry_trace pnames parseF ((splitSlash id).getD 0 "") (netF id) hid]

/-- C4 witness: an endpoint that always answers HTTP 503 is attempted exactly
3 times with delays 200 and 400 ms, yields nothing, and its id is missing
from the batch result. -/
theorem C4_retry_budget_witness :
    fetch_model_endpoints (fun _ => none) (fun _ => none) "a" (fun _ => .resp 503 none)
      = ⟨none, 3, [200, 400]⟩ ∧
    ((("a/b", unitPricing) ∉
      (fetch_all_mapped none (fun _ => none) (fun _ => none) ["a/b"]
        (fun _ _ => .resp 503 none)).1)) := by
  have h : ∀ n, retryableOutcome ((fun (_ : Nat) => FetchOutcome.resp 503 none) n) :=
    fun _ => Or.inr ⟨503, none, rfl, Or.inl (by norm_num)⟩
  constructor
  · have := (C4_retry_budget (fun _ => none) (fun _ => none) "a"
      (fun _ => .resp 503 none) h).1
    simpa [INITIAL_BACKOFF_MS] using this
  · exact (C4_retry_budget (fun _ => none) (fun _ => none) "a"
      (fun _ => .resp 503 none) h).2 ["a/b"] (fun _ _ => .resp 503 none) "a/b"
      (fun _ => Or.inr ⟨503, none, rfl, Or.inl (by norm_num)⟩) unitPricing

/-- C8: every non-retryable failure — 4xx other than 429 (any body),
malformed JSON, no endpoint with the expected provider name, or an
unparseable / non-finite / negative prompt or completion price — classifies
as an immediate drop; a drop at attempt `k` (after `k` retryable attempts)
ends the fetch at exactly `k + 1` attempts with no result; a dropped id is
absent from the (always returned) batch mapping; and the batch result is
written to the cache exactly when it is non-empty (never on a cache hit). -/
theorem C8_nonretryable_drop (pnames : String → Option String) (parseF : String → Option F64)
    (author : String) :
    (∀ s b, 400 ≤ s → s ≤ 499 → s ≠ 429 →
      classifyAttempt pnames parseF author (.resp s b) = .done none) ∧
    (∀ s, 200 ≤ s → s ≤ 299 →
      classifyAttempt pnames parseF author (.resp s none) = .done none) ∧
    (∀ s r, 200 ≤ s → s ≤ 299 →
      r.data.endpoints.find?
        (fun e => eqIgnoreAsciiCase e.provider_name ((pnames author).getD author)) = none →
      classifyAttempt pnames parseF author (.resp s (some r)) = .done none) ∧
    (∀ s r endpoint, 200 ≤ s → s ≤ 299 →
      r.data.endpoints.find?
        (fun e => eqIgnoreAsciiCase e.provider_name ((pnames author).getD author))
        = some endpoint →
      (parseF (strTrim endpoint.pricing.prompt) = none ∨
       parseF (strTrim endpoint.pricing.completion) = none ∨
       (∃ v, parseF (strTrim endpoint.pricing.prompt) = some v ∧
         (v.isFinite = false ∨ v.ltZero = true)) ∨
       (∃ v, parseF (strTrim endpoint.pricing.completion) = some v ∧
         (v.isFinite = false ∨ v.ltZero = true))) →
      classifyAttempt pnames parseF author (.resp s (some r)) = .done none) ∧
    (∀ (net : Nat → FetchOutcome) (k : Nat), k < MAX_RETRIES →
      (∀ n, n < k → retryableOutcome (net n)) →
      classifyAttempt pnames parseF author (net k) = .done none →
      fetch_model_endpoints pnames parseF author net =
        ⟨none, k + 1, (List.range k).map (fun n => INITIAL_BACKOFF_MS * 2 ^ n)⟩) ∧
    (∀ (ids : List String) (netF : String → Nat → FetchOutcome) (id : String),
      classifyAttempt pnames parseF ((splitSlash id).getD 0 "") (netF id 0) = .done none →
      ∀ mp, (id, mp) ∉ (fetch_all_mapped none pnames parseF ids netF).1) ∧
    (∀ (ids : List String) (netF : String → Nat → FetchOutcome),
      (fetch_all_mapped none pnames parseF ids netF).2 =
        !(fetch_all_mapped none pnames parseF ids netF).1.isEmpty) ∧
    (∀ (c : List (String × ModelPricing)) (ids : List String)
      (netF : String → Nat → FetchOutcome),
      fetch_all_mapped (some c) pnames parseF ids netF = (c, false)) := by
  refine ⟨?_, ?_, ?_, ?_, ?_, ?_, ?_, ?_⟩
  · intro s b h1 h2 h3
    have e1 : ((500 ≤ s && s ≤ 599) || s == 429) = false := by
      simp; omega
    have e2 : (200 ≤ s && s ≤ 299) = false := by
      simp; omega
    simp [classifyAttempt, e1, e2]
  · intro s h1 h2
    have e1 : ((500 ≤ s && s ≤ 599) || s == 429) = false := by
      simp; omega
    have e2 : (200 ≤ s && s ≤ 299) = true := by
      simp; omega
    simp [classifyAttempt, e1, e2, processResponse]
  · intro s r h1 h2 hfind
    have e1 : ((500 ≤ s && s ≤ 599) || s == 429) = false := by
      simp; omega
    have e2 : (200 ≤ s && s ≤ 299) = true := by
      simp; omega
    simp [classifyAttempt, e1, e2, processResponse, hfind]
  · intro s r endpoint h1 h2 hfind hbad
    have e1 : ((500 ≤ s && s ≤ 599) || s == 429) = false := by
      simp; omega
    have e2 : (200 ≤ s && s ≤ 299) = true := by
      simp; omega
    simp only [classifyAttempt, e1, e2, Bool.false_eq_true, if_false, if_true,
      Bool.not_eq_true']
    rcases hbad with hp | hc | ⟨v, hv, hbadv⟩ | ⟨v, hv, hbadv⟩
    · simp [processResponse, hfind, hp]
    · cases hpp : parseF (strTrim endpoint.pricing.prompt) with
      | none => simp [processResponse, hfind, hpp]
      | some v => simp [processResponse, hfind, hpp, hc]
    · cases hcc : parseF (strTrim endpoint.pricing.completion) with
      | none => simp [processResponse, hfind, hv, hcc]
      | some w =>
        rcases hbadv with hb | hb <;>
          simp [processResponse, hfind, hv, hcc, hb]
    · cases hpp : parseF (strTrim endpoint.pricing.prompt) with
      | none => simp [processResponse, hfind, hpp]
      | some w =>
        rcases hbadv with hb | hb <;>
          simp [processResponse, hfind, hpp, hv, hb]
  · intro net k hk hpre hdone
    exact fetch_drop_trace pnames parseF author net k hk hpre hdone
  · intro ids netF id hdone mp
    refine absent_of_result_none pnames parseF ids netF id ?_ mp
    rw [fetch_drop_trace pnames parseF ((splitSlash id).getD 0 "") (netF id) 0
      (by simp [MAX_RETRIES]) (by omega) hdone]
  · intro ids netF
    simp [fetch_all_mapped]
  · intro c ids netF
    rfl

/-- C8 witness: a single HTTP 404 answer drops the id after exactly one
attempt with no backoff; the all-failure batch is empty and not cached. -/
theorem C8_nonretryable_drop_witness :
    fetch_model_endpoints (fun _ => none) (fun _ => none) "a" (fun _ => .resp 404 none)
      = ⟨none, 1, []⟩ ∧
    fetch_all_mapped none (fun _ => none) (fun _ => none) ["a/b"]
      (fun _ _ => .resp 404 none) = ([], false) := by
  have hcl : classifyAttempt (fun _ => none) (fun _ => none) "a"
      ((fun (_ : Nat) => FetchOutcome.resp 404 none) 0) = .done none :=
    (C8_nonretryable_drop (fun _ => none) (fun _ => none) "a").1 404 none
      (by norm_num) (by norm_num) (by norm_num)
  constructor
  · have := (C8_nonretryable_drop (fun _ => none) (fun _ => none) "a").2.2.2.2.1
      (fun _ => .resp 404 none) 0 (by decide) (by omega) hcl
    simpa using this
  · decide

/-- C9: the amp parser is total and degrades per record: an unreadable or
undecodable file yields `[]`; within a decodable file the ledger loop drops
exactly the events with no model or whose timestamp does not resolve to a
usable (nonzero) epoch-ms value, emitting all others; and the per-message
fallback drops exactly the records that are not assistant messages carrying
a usage block with a model (their timestamp is always the approximation
`created + messageId*1000`, never a drop cause). -/
theorem C9_amp_parser_degrades (parseTs : String → Option Int) (fileStem : String) :
    (parse_amp_file parseTs fileStem none = []) ∧
    (∀ (thread : AmpThread) (events : List AmpUsageEvent),
      thread.usage_ledger = some ⟨some events⟩ →
      parse_amp_file parseTs fileStem (some thread) =
        events.filterMap (ampLedgerEvent parseTs (thread.id.getD fileStem))) ∧
    (∀ (tid : String) (e : AmpUsageEvent),
      ampLedgerEvent parseTs tid e = none ↔
        (e.model = none ∨ (e.timestamp.bind parseTs).getD 0 = 0)) ∧
    (∀ (thread : AmpThread),
      (thread.usage_ledger = none ∨ thread.usage_ledger = some ⟨none⟩) →
      parse_amp_file parseTs fileStem (some thread) =
        (thread.messages.getD []).filterMap
          (ampFallbackMessage (thread.created.getD 0) (thread.id.getD fileStem))) ∧
    (∀ (created : Int) (tid : String) (msg : AmpMessage),
      ampFallbackMessage created tid msg = none ↔
        (msg.role ≠ some "assistant" ∨ msg.usage = none ∨
          ∃ u, msg.usage = some u ∧ u.model = none)) := by
  refine ⟨rfl, ?_, ?_, ?_, ?_⟩
  · intro thread events h
    simp [parse_amp_file, h]
  · intro tid e
    cases hm : e.model with
    | none => simp [ampLedgerEvent, hm]
    | some m =>
      by_cases ht : (e.timestamp.bind parseTs).getD 0 = 0 <;>
        simp [ampLedgerEvent, hm, ht]
  · intro thread h
    rcases h with h | h <;> simp [parse_amp_file, h]
  · intro created tid msg
    by_cases hrole : msg.role = some "assistant"
    · cases hu : msg.usage with
      | none => simp [ampFallbackMessage, hrole, hu]
      | some u =>
        cases hm : u.model with
        | none => simp [ampFallbackMessage, hrole, hu, hm]
        | some m => simp [ampFallbackMessage, hrole, hu, hm]
    · simp [ampFallbackMessage, hrole]

/-- C9 witness: a three-event ledger (no model / unparseable timestamp /
valid) emits exactly the one valid event. -/
theorem C9_amp_parser_degrades_witness :
    parse_amp_file (fun s => if s = "2024-01-01T00:00:00Z" then some 1704067200000 else none)
      "stem"
      (some ⟨some "t1", none, none, some ⟨some
        [⟨some "2024-01-01T00:00:00Z", none, none, none, none⟩,
         ⟨some "garbage", some "claude-sonnet-4", none, none, none⟩,
         ⟨some "2024-01-01T00:00:00Z", some "claude-sonnet-4", some 2,
           some ⟨some 10, some 20⟩, none⟩]⟩⟩) =
      [⟨"amp", "claude-sonnet-4", "anthropic", "t1", 1704067200000,
        ⟨10, 20, 0, 0, 0⟩, 2⟩] := by
  have h := (C9_amp_parser_degrades
    (fun s => if s = "2024-01-01T00:00:00Z" then some 1704067200000 else none) "stem").2.1
    ⟨some "t1", none, none, some ⟨some
        [⟨some "2024-01-01T00:00:00Z", none, none, none, none⟩,
         ⟨some "garbage", some "claude-sonnet-4", none, none, none⟩,
         ⟨some "2024-01-01T00:00:00Z", some "claude-sonnet-4", some 2,
           some ⟨some 10, some 20⟩, none⟩]⟩⟩
    [⟨some "2024-01-01T00:00:00Z", none, none, none, none⟩,
     ⟨some "garbage", some "claude-sonnet-4", none, none, none⟩,
     ⟨some "2024-01-01T00:00:00Z", some "claude-sonnet-4", some 2,
       some ⟨some 10, some 20⟩, none⟩] rfl
  rw [h]
  decide

/-- `lookup_litellm` is exactly the ordered disjunction of the five bulk
strategies. -/
theorem lookup_litellm_eq_chain (l : PricingLookup) (id : String) :
    l.lookup_litellm id =
      ((((exact_strategy l id).or (prefixed_strategy l id)).or
        ((normalized_exact_strategy l id).or (normalized_prefixed_strategy l id))).or
        (l.fuzzy_match_litellm id)) := by
  cases h1 : dsGet l.litellm id with
  | some p =>
    simp [PricingLookup.lookup_litellm, exact_strategy, prefixed_strategy,
      normalized_exact_strategy, normalized_prefixed_strategy, h1, Option.or]
  | none =>
    cases h2 : PROVIDER_PREFIXES.findSome? (fun pre =>
        (dsGet l.litellm (pre ++ id)).map
          (fun p => LookupResult.mk p "litellm" (pre ++ id))) with
    | some r =>
      simp [PricingLookup.lookup_litellm, exact_strategy, prefixed_strategy,
        normalized_exact_strategy, normalized_prefixed_strategy, h1, h2, Option.or]
    | none =>
      cases h3 : normalize_model_name id with
      | none =>
        simp [PricingLookup.lookup_litellm, exact_strategy, prefixed_strategy,
          normalized_exact_strategy, normalized_prefixed_strategy, h1, h2, h3, Option.or]
      | some normalized =>
        cases h4 : dsGet l.litellm normalized with
        | some p =>
          simp [PricingLookup.lookup_litellm, exact_strategy, prefixed_strategy,
            normalized_exact_strategy, normalized_prefixed_strategy, h1, h2, h3, h4, Option.or]
        | none =>
          cases h5 : PROVIDER_PREFIXES.findSome? (fun pre =>
              (dsGet l.litellm (pre ++ normalized)).map
                (fun p => LookupResult.mk p "litellm" (pre ++ normalized))) with
          | some r =>
            simp [PricingLookup.lookup_litellm, exact_strategy, prefixed_strategy,
              normalized_exact_strategy, normalized_prefixed_strategy,
              h1, h2, h3, h4, h5, Option.or]
          | none =>
            simp [PricingLookup.lookup_litellm, exact_strategy, prefixed_strategy,
              normalized_exact_strategy, normalized_prefixed_strategy,
              h1, h2, h3, h4, h5, Option.or]

/-- Any `lookup_litellm` hit carries source `"litellm"` and its pricing is
the value stored in the bulk dataset under its matched key. -/
theorem lookup_litellm_spec (l : PricingLookup) (id : String) (r : LookupResult)
    (h : l.lookup_litellm id = some r) :
    r.source = "litellm" ∧ dsGet l.litellm r.matched_key = some r.pricing := by
  unfold PricingLookup.lookup_litellm at h
  split at h
  · next p hget =>
    cases h
    exact ⟨rfl, hget⟩
  · next hget =>
    split at h
    · next r0 hfind =>
      cases h
      obtain ⟨pre, _, hf⟩ := List.exists_of_findSome?_eq_some hfind
      rw [Option.map_eq_some'] at hf
      obtain ⟨p, hp, hpr⟩ := hf
      cases hpr
      exact ⟨rfl, hp⟩
    · next hfind =>
      split at h
      · next normalized hnorm =>
        split at h
        · next p hget2 =>
          cases h
          exact ⟨rfl, hget2⟩
        · next hget2 =>
          split at h
          · next r0 hfind2 =>
            cases h
            obtain ⟨pre, _, hf⟩ := List.exists_of_findSome?_eq_some hfind2
            rw [Option.map_eq_some'] at hf
            obtain ⟨p, hp, hpr⟩ := hf
            cases hpr
            exact ⟨rfl, hp⟩
          · next hfind2 =>
            obtain ⟨key, _, hbody⟩ := List.exists_of_findSome?_eq_some h
            simp only at hbody
            split at hbody
            · rw [Option.map_eq_some'] at hbody
              obtain ⟨p, hp, hpr⟩ := hbody
              cases hpr
              exact ⟨rfl, hp⟩
            · split at hbody
              · next ln hln =>
                split at hbody
                · rw [Option.map_eq_some'] at hbody
                  obtain ⟨p, hp, hpr⟩ := hbody
                  cases hpr
                  exact ⟨rfl, hp⟩
                · exact Option.noConfusion hbody
              · exact Option.noConfusion hbody
      · next hnorm =>
        obtain ⟨key, _, hbody⟩ := List.exists_of_findSome?_eq_some h
        simp only at hbody
        split at hbody
        · rw [Option.map_eq_some'] at hbody
          obtain ⟨p, hp, hpr⟩ := hbody
          cases hpr
          exact ⟨rfl, hp⟩
        · split at hbody
          · next ln hln =>
            split at hbody
            · rw [Option.map_eq_some'] at hbody
              obtain ⟨p, hp, hpr⟩ := hbody
              cases hpr
              exact ⟨rfl, hp⟩
            · exact Option.noConfusion hbody
          · exact Option.noConfusion hbody

/-- Any `lookup_openrouter` hit carries source `"openrouter"` and its pricing
is the value stored in the per-endpoint dataset under its matched key. -/
theorem lookup_openrouter_spec (a : Aliases) (l : PricingLookup) (id : String)
    (r : LookupResult) (h : PricingLookup.lookup_openrouter a l id = some r) :
    r.source = "openrouter" ∧ dsGet l.openrouter r.matched_key = some r.pricing := by
  unfold PricingLookup.lookup_openrouter at h
  rw [Option.bind_eq_some] at h
  obtain ⟨or_id, _, hf⟩ := h
  rw [Option.map_eq_some'] at hf
  obtain ⟨p, hp, hpr⟩ := hf
  cases hpr
  exact ⟨rfl, hp⟩

/-- C1: `lookup` first resolves the id through the alias table, then tries
the bulk strategies in strict order — exact, provider-prefixed, normalized
exact, normalized prefixed, fuzzy — and the per-endpoint dataset only after
all of them fail; in particular an exact bulk hit on the alias-resolved id is
returned no matter what any other key would fuzzy-match. -/
theorem C1_lookup_precedence (a : Aliases) (ds1 ds2 : List (String × ModelPricing))
    (id : String) :
    ((PricingLookup.new ds1 ds2).lookup a id =
      (let l := PricingLookup.new ds1 ds2
       let canonical := (a.resolve_alias id).getD id
       ((((exact_strategy l canonical).or (prefixed_strategy l canonical)).or
         ((normalized_exact_strategy l canonical).or
           (normalized_prefixed_strategy l canonical))).or
         (l.fuzzy_match_litellm canonical)).or
         (PricingLookup.lookup_openrouter a l canonical))) ∧
    (∀ p, dsGet ds1 ((a.resolve_alias id).getD id) = some p →
      (PricingLookup.new ds1 ds2).lookup a id =
        some ⟨p, "litellm", (a.resolve_alias id).getD id⟩) ∧
    (∀ r, (PricingLookup.new ds1 ds2).lookup a id = some r → r.source = "openrouter" →
      (PricingLookup.new ds1 ds2).lookup_litellm ((a.resolve_alias id).getD id) = none) := by
  refine ⟨?_, ?_, ?_⟩
  · show (PricingLookup.new ds1 ds2).lookup a id = _
    rw [PricingLookup.lookup]
    cases hl : (PricingLookup.new ds1 ds2).lookup_litellm ((a.resolve_alias id).getD id) with
    | some r =>
      have := (lookup_litellm_eq_chain (PricingLookup.new ds1 ds2)
        ((a.resolve_alias id).getD id)).symm.trans hl
      simp only [hl]
      rw [this]
      rfl
    | none =>
      have := (lookup_litellm_eq_chain (PricingLookup.new ds1 ds2)
        ((a.resolve_alias id).getD id)).symm.trans hl
      simp only [hl]
      simp only [this, Option.none_or]
  · intro p hp
    have hl : (PricingLookup.new ds1 ds2).lookup_litellm ((a.resolve_alias id).getD id) =
        some ⟨p, "litellm", (a.resolve_alias id).getD id⟩ := by
      unfold PricingLookup.lookup_litellm
      have : (PricingLookup.new ds1 ds2).litellm = ds1 := rfl
      rw [this, hp]
    rw [PricingLookup.lookup, hl]
  · intro r hr hsrc
    rw [PricingLookup.lookup] at hr
    cases hl : (PricingLookup.new ds1 ds2).lookup_litellm ((a.resolve_alias id).getD id) with
    | some r0 =>
      rw [hl] at hr
      cases hr
      have := (lookup_litellm_spec _ _ _ hl).1
      rw [hsrc] at this
      exact absurd this (by decide)
    | none => rfl

/-- C1 witness: with bulk keys `gpt-4o` and `openai/gpt-4o`, the id `gpt-4o`
resolves to the exact key (pricing `unitPricing`), even though the other key
would also fuzzy-match it. -/
theorem C1_lookup_precedence_witness :
    (PricingLookup.new [("gpt-4o", unitPricing), ("openai/gpt-4o", scenarioPricing)] []).lookup
      noAliases "gpt-4o" = some ⟨unitPricing, "litellm", "gpt-4o"⟩ ∧
    is_word_boundary_match (strToLower "openai/gpt-4o") (strToLower "gpt-4o") = true :=
  ⟨(C1_lookup_precedence noAliases
      [("gpt-4o", unitPricing), ("openai/gpt-4o", scenarioPricing)] [] "gpt-4o").2.1
      unitPricing (by decide),
   by decide⟩

/-- C10: every `lookup` hit has consistent provenance — source `"litellm"`
with the pricing stored in the bulk dataset under the matched key, or source
`"openrouter"` with the pricing stored in the per-endpoint dataset under the
matched key. -/
theorem C10_lookup_provenance (a : Aliases) (ds1 ds2 : List (String × ModelPricing))
    (id : String) (r : LookupResult)
    (h : (PricingLookup.new ds1 ds2).lookup a id = some r) :
    (r.source = "litellm" ∧ dsGet ds1 r.matched_key = some r.pricing) ∨
    (r.source = "openrouter" ∧ dsGet ds2 r.matched_key = some r.pricing) := by
  rw [PricingLookup.lookup] at h
  cases hl : (PricingLookup.new ds1 ds2).lookup_litellm ((a.resolve_alias id).getD id) with
  | some r0 =>
    rw [hl] at h
    cases h
    exact Or.inl (lookup_litellm_spec _ _ _ hl)
  | none =>
    rw [hl] at h
    exact Or.inr (lookup_openrouter_spec _ _ _ _ h)

/-- C10 witness: a per-endpoint hit through the alias table has source
`"openrouter"` and pricing equal to the stored value. -/
theorem C10_lookup_provenance_witness :
    ("openrouter" = "litellm" ∧
      dsGet [] "anthropic/claude-sonnet-4" = some unitPricing) ∨
    ("openrouter" = "openrouter" ∧
      dsGet [("anthropic/claude-sonnet-4", unitPricing)] "anthropic/claude-sonnet-4"
        = some unitPricing) :=
  C10_lookup_provenance
    ⟨fun _ => none, fun s => if s = "claude" then some "anthropic/claude-sonnet-4" else none⟩
    [] [("anthropic/claude-sonnet-4", unitPricing)] "claude"
    ⟨unitPricing, "openrouter", "anthropic/claude-sonnet-4"⟩ (by decide)

/-- `firstOccur` returns an in-range position where the needle occurs. -/
theorem firstOccur_spec (needle : List Char) (hay : List Char) (pos : Nat)
    (h : firstOccur needle hay = some pos) :
    pos ≤ hay.length ∧ needle.isPrefixOf (hay.drop pos) := by
  induction hay generalizing pos with
  | nil =>
    unfold firstOccur at h
    split at h
    · next hpre =>
      cases h
      exact ⟨Nat.le_refl 0, hpre⟩
    · exact Option.noConfusion h
  | cons c t ih =>
    unfold firstOccur at h
    split at h
    · next hpre =>
      cases h
      exact ⟨Nat.zero_le _, hpre⟩
    · next hpre =>
      rw [Option.map_eq_some'] at h
      obtain ⟨q, hq, hq1⟩ := h
      obtain ⟨h1, h2⟩ := ih q hq
      subst hq1
      constructor
      · simpa using Nat.succ_le_succ h1
      · simpa using h2

/-- A first-occurrence word-boundary match implies the spec's
exists-an-occurrence word-boundary containment. -/
theorem word_boundary_match_implies_occurrence (h n : String)
    (hm : is_word_boundary_match h n = true) :
    existsWordBoundaryOccurrence h n = true := by
  unfold is_word_boundary_match at hm
  cases hfo : firstOccur n.data h.data with
  | none => simp [hfo] at hm
  | some pos =>
    simp only [hfo] at hm
    rw [Bool.and_eq_true] at hm
    obtain ⟨hple, hpre⟩ := firstOccur_spec _ _ _ hfo
    unfold existsWordBoundaryOccurrence
    rw [List.any_eq_true]
    refine ⟨pos, ?_, ?_⟩
    · rw [List.mem_range]
      omega
    · rw [Bool.and_eq_true, Bool.and_eq_true]
      exact ⟨⟨hpre, hm.1⟩, hm.2⟩

/-- A key present in the dataset's key list has a stored value. -/
theorem dsGet_isSome_of_mem_keys (ds : List (String × ModelPricing)) (k : String)
    (h : k ∈ ds.map Prod.fst) : (dsGet ds k).isSome := by
  induction ds with
  | nil => simp at h
  | cons e t ih =>
    rw [List.map_cons, List.mem_cons] at h
    by_cases he : e.1 == k
    · simp [dsGet, List.find?_cons, he]
    · rcases h with h | h
      · rw [beq_iff_eq] at he
        exact absurd h.symm he
      · simpa [dsGet, List.find?_cons, he] using ih h

/-- The per-key two-test fuzzy scan over any key list whose keys all have
stored values equals `find?` with the single disjunctive predicate followed
by the dataset read. -/
theorem fuzzy_scan_eq_find (ds : List (String × ModelPricing)) (orig : String)
    (nrm : Option String) (keys : List String) (hk : ∀ k ∈ keys, (dsGet ds k).isSome) :
    keys.findSome? (fun key =>
      if is_word_boundary_match (strToLower key) orig then
        (dsGet ds key).map (fun p => LookupResult.mk p "litellm" key)
      else
        match nrm with
        | some ln =>
          if is_word_boundary_match (strToLower key) ln then
            (dsGet ds key).map (fun p => LookupResult.mk p "litellm" key)
          else none
        | none => none) =
    (keys.find? (fun key => is_word_boundary_match (strToLower key) orig ||
        nrm.any (fun ln => is_word_boundary_match (strToLower key) ln))).bind
      (fun key => (dsGet ds key).map (fun p => LookupResult.mk p "litellm" key)) := by
  cases nrm with
  | none =>
    induction keys with
    | nil => rfl
    | cons k t ih =>
      have hks : (dsGet ds k).isSome := hk k (List.mem_cons_self k t)
      obtain ⟨p, hp⟩ := Option.isSome_iff_exists.mp hks
      have iht := ih (fun y hy => hk y (List.mem_cons_of_mem k hy))
      rw [List.findSome?_cons, List.find?_cons]
      by_cases h1 : is_word_boundary_match (strToLower k) orig = true
      · simp [h1, hp]
      · have h1f : is_word_boundary_match (strToLower k) orig = false := by
          simpa using h1
        simp [h1f, iht]
  | some ln =>
    induction keys with
    | nil => rfl
    | cons k t ih =>
      have hks : (dsGet ds k).isSome := hk k (List.mem_cons_self k t)
      obtain ⟨p, hp⟩ := Option.isSome_iff_exists.mp hks
      have iht := ih (fun y hy => hk y (List.mem_cons_of_mem k hy))
      rw [List.findSome?_cons, List.find?_cons]
      by_cases h1 : is_word_boundary_match (strToLower k) orig = true
      · simp [h1, hp]
      · have h1f : is_word_boundary_match (strToLower k) orig = false := by
          simpa using h1
        by_cases h2 : is_word_boundary_match (strToLower k) ln = true
        · simp [h1f, h2, hp]
        · have h2f : is_word_boundary_match (strToLower k) ln = false := by
            simpa using h2
          simp [h1f, h2f, iht]

/-- C3 counterexample: with bulk dataset `{"aab-ab"}` and query `"ab"`, the
candidate does occur in the key bounded by a non-alphanumeric character and
the string edge (at the second occurrence), so the claim says the key
matches — but the fuzzy fallback (which inspects only the FIRST occurrence)
returns nothing, and so does the whole lookup. -/
theorem C3_cex_first_occurrence_only :
    existsWordBoundaryOccurrence (strToLower "aab-ab") (strToLower "ab") = true ∧
    (PricingLookup.new [("aab-ab", unitPricing)] []).fuzzy_match_litellm "ab" = none ∧
    (PricingLookup.new [("aab-ab", unitPricing)] []).lookup noAliases "ab" = none := by
  refine ⟨by decide, by decide, by decide⟩

/-- C3 (amended): the fuzzy fallback scans the bulk keys in ascending sorted
order and returns the first key whose lower-cased form contains the
lower-cased original id (or, separately, the lower-cased normalized id when
one exists) such that the FIRST occurrence of that candidate in the key is
bounded on both sides by a non-alphanumeric character or a string edge; a
key with no such bounded occurrence at all never matches (so a candidate
appearing only adjacent to alphanumerics does not match), and the sorted
`find?` scan makes the chosen key deterministic. -/
theorem C3_fuzzy_first_occurrence_boundary (ds1 ds2 : List (String × ModelPricing))
    (id : String) :
    List.Sorted strDataLe (PricingLookup.new ds1 ds2).sorted_keys ∧
    ((PricingLookup.new ds1 ds2).fuzzy_match_litellm id =
      ((PricingLookup.new ds1 ds2).sorted_keys.find? (fuzzyKeyMatches id)).bind
        (fun key => (dsGet ds1 key).map (fun p => ⟨p, "litellm", key⟩))) ∧
    (∀ h n : String, is_word_boundary_match h n = true →
      existsWordBoundaryOccurrence h n = true) := by
  refine ⟨?_, ?_, fun h n => word_boundary_match_implies_occurrence h n⟩
  · exact List.sorted_insertionSort strDataLe (ds1.map Prod.fst)
  · have hk : ∀ k ∈ (PricingLookup.new ds1 ds2).sorted_keys, (dsGet ds1 k).isSome := by
      intro k hkmem
      refine dsGet_isSome_of_mem_keys ds1 k ?_
      exact (List.perm_insertionSort strDataLe (ds1.map Prod.fst)).mem_iff.mp hkmem
    exact fuzzy_scan_eq_find ds1 (strToLower id) ((normalize_model_name id).map strToLower)
      (PricingLookup.new ds1 ds2).sorted_keys hk

/-- C3 witness: the normalized candidate `gpt-4o` matches key
`openai/gpt-4o` at its first occurrence, so it also occurs word-bounded. -/
theorem C3_fuzzy_first_occurrence_boundary_witness :
    existsWordBoundaryOccurrence "openai/gpt-4o" "gpt-4o" = true :=
  (C3_fuzzy_first_occurrence_boundary [] [] "x").2.2 "openai/gpt-4o" "gpt-4o" (by decide)

end Tokscale
